import Mathlib

/-!
Shallow embedding of the remote-execution subsystem of the deepflow agent
(`src/agent/src/rpc/remote_exec.rs`) and proofs about the claims of its
specification.  Machine integers are modelled as `Nat`/`Int`; byte buffers as
`List Nat`; protobuf optional fields as `Option`.
-/

set_option maxRecDepth 4000

/-- Helper for `split_whitespace`: walks the character list keeping the
(reversed) current word in `acc`. -/
def split_whitespace_aux : List Char → List Char → List String
  | [], acc => if acc = [] then [] else [String.mk acc.reverse]
  | c :: cs, acc =>
    if c.isWhitespace then
      (if acc = [] then [] else [String.mk acc.reverse]) ++ split_whitespace_aux cs []
    else
      split_whitespace_aux cs (c :: acc)

/-- Rust `str::split_whitespace`: maximal whitespace-free tokens, no empties. -/
def split_whitespace (s : String) : List String :=
  split_whitespace_aux s.toList []

/-- Rust `str::starts_with('$')` on a token. -/
def starts_with_dollar (s : String) : Bool :=
  match s.toList with
  | c :: _ => c = '$'
  | [] => false

/-- Rust `str::split_at(1).1`: the token with its first character removed. -/
def drop_sigil (s : String) : String :=
  String.mk (s.toList.drop 1)

/-- Model of `enum OutputFormat` from the source. -/
inductive OutputFormat
  | text
  | binary
deriving DecidableEq

/-- Model of `enum KubeCmd` from the source. -/
inductive KubeCmd
  | describePod
  | log
  | logPrevious
deriving DecidableEq

/-- Model of `enum CommandType` from the source. -/
inductive CommandType
  | linux
  | kubernetes (k : KubeCmd)
deriving DecidableEq

/-- Model of `struct Command` from the source: one catalog entry. -/
structure Command where
  cmdline : String
  output_format : OutputFormat
  desc : String
  command_type : CommandType
deriving DecidableEq

/-- Model of `all_supported_commands()` from the source: the fixed command catalog. -/
def all_supported_commands : List Command :=
  [ { cmdline := "lsns", output_format := .text, desc := "",
      command_type := .linux },
    { cmdline := "top -b -n 1 -c -w 512", output_format := .text, desc := "top",
      command_type := .linux },
    { cmdline := "ps auxf", output_format := .text, desc := "ps",
      command_type := .linux },
    { cmdline := "ip address", output_format := .text, desc := "",
      command_type := .linux },
    { cmdline := "kubectl -n $ns describe pod $pod", output_format := .text, desc := "",
      command_type := .kubernetes .describePod },
    { cmdline := "kubectl -n $ns logs --tail=10000 $pod", output_format := .text, desc := "",
      command_type := .kubernetes .log },
    { cmdline := "kubectl -n $ns logs --tail=10000 -p $pod", output_format := .text, desc := "",
      command_type := .kubernetes .logPrevious } ]

/-- Model of `get_cmd(id)` from the source: catalog lookup by positional id. -/
def get_cmd (id : Nat) : Option Command :=
  all_supported_commands.get? id

/-- Model of `get_cmdline(id)` from the source. -/
def get_cmdline (id : Nat) : Option String :=
  (get_cmd id).map (fun c => c.cmdline)

/-- Model of `max_param_nums()` from the source: the maximum number of `$` placeholders
over all catalog entries. -/
def max_param_nums : Nat :=
  ((all_supported_commands.map (fun c =>
      ((split_whitespace c.cmdline).map
        (fun seg => if starts_with_dollar seg then 1 else 0)).sum)).max?).getD 0

/-- One `pb::Parameter`: optional key and value, as on the wire. -/
structure Parameter where
  key : Option String := none
  value : Option String := none
deriving DecidableEq

/-- One byte of a parameter value is acceptable iff it is in `[A-Za-z0-9_-]`
(the match arms of `Params::is_valid`).  Catalog parameter values are ASCII;
on ASCII a per-`char` check coincides with the source's per-byte check, and a
multi-byte character fails both. -/
def param_char_ok (c : Char) : Bool :=
  ('A' ≤ c && c ≤ 'Z') || ('a' ≤ c && c ≤ 'z') || ('0' ≤ c && c ≤ '9') ||
    c = '-' || c = '_'

/-- Model of `Params::is_valid` from the source: every entry must have a present key, a
present value, and every byte of the value in `[A-Za-z0-9_-]`. -/
def Params.is_valid (ps : List Parameter) : Bool :=
  ps.all (fun p =>
    p.key.isSome &&
      match p.value with
      | none => false
      | some v => v.toList.all param_char_ok)

/-- The validity predicate as worded by the spec (for comparison with the
source's `Params.is_valid`): every entry has a NON-EMPTY key and a NON-EMPTY
value, and every byte of every value lies in `[A-Za-z0-9_-]`. -/
def spec_params_valid (ps : List Parameter) : Bool :=
  ps.all (fun p =>
    (match p.key with
     | none => false
     | some k => k ≠ "") &&
      match p.value with
      | none => false
      | some v => v ≠ "" && v.toList.all param_char_ok)

/-- The `fmt::Debug` rendering of `Params` from the source (used in the
invalid-parameter error message). -/
def params_debug (ps : List Parameter) : String :=
  let body := ps.foldl (fun (acc : String × Bool) p =>
    match p.key with
    | none => acc
    | some key =>
      let sep := if acc.2 then " " else ", "
      match p.value with
      | some value => (acc.1 ++ sep ++ key ++ ": \x22" ++ value ++ "\x22", false)
      | none => (acc.1 ++ sep ++ key ++ ": null", false)) ("\x7b", true)
  (if body.2 then body.1 else body.1 ++ " ") ++ "\x7d"

/-!
MD5 (RFC 1321), modelling the `md5` crate's digest used by the responder.
All words are `Nat` taken modulo `2 ^ 32`.
-/

/-- The 32-bit left rotation (operand assumed `< 2 ^ 32`). -/
def md5_rotl (x n : Nat) : Nat :=
  ((x <<< n) % 4294967296) ||| (x >>> (32 - n))

/-- MD5 per-round left-rotation amounts. -/
def md5_s (i : Nat) : Nat :=
  [7, 12, 17, 22, 7, 12, 17, 22, 7, 12, 17, 22, 7, 12, 17, 22,
   5, 9, 14, 20, 5, 9, 14, 20, 5, 9, 14, 20, 5, 9, 14, 20,
   4, 11, 16, 23, 4, 11, 16, 23, 4, 11, 16, 23, 4, 11, 16, 23,
   6, 10, 15, 21, 6, 10, 15, 21, 6, 10, 15, 21, 6, 10, 15, 21].getD i 0

/-- MD5 sine-derived round constants. -/
def md5_k (i : Nat) : Nat :=
  [0xd76aa478, 0xe8c7b756, 0x242070db, 0xc1bdceee,
   0xf57c0faf, 0x4787c62a, 0xa8304613, 0xfd469501,
   0x698098d8, 0x8b44f7af, 0xffff5bb1, 0x895cd7be,
   0x6b901122, 0xfd987193, 0xa679438e, 0x49b40821,
   0xf61e2562, 0xc040b340, 0x265e5a51, 0xe9b6c7aa,
   0xd62f105d, 0x02441453, 0xd8a1e681, 0xe7d3fbc8,
   0x21e1cde6, 0xc33707d6, 0xf4d50d87, 0x455a14ed,
   0xa9e3e905, 0xfcefa3f8, 0x676f02d9, 0x8d2a4c8a,
   0xfffa3942, 0x8771f681, 0x6d9d6122, 0xfde5380c,
   0xa4beea44, 0x4bdecfa9, 0xf6bb4b60, 0xbebfbc70,
   0x289b7ec6, 0xeaa127fa, 0xd4ef3085, 0x04881d05,
   0xd9d4d039, 0xe6db99e5, 0x1fa27cf8, 0xc4ac5665,
   0xf4292244, 0x432aff97, 0xab9423a7, 0xfc93a039,
   0x655b59c3, 0x8f0ccc92, 0xffeff47d, 0x85845dd1,
   0x6fa87e4f, 0xfe2ce6e0, 0xa3014314, 0x4e0811a1,
   0xf7537e82, 0xbd3af235, 0x2ad7d2bb, 0xeb86d391].getD i 0

/-- One MD5 round: `m g` is the g-th 32-bit message word of the current block;
the state is `(a, b, c, d)`. -/
def md5_step (m : Nat → Nat) (st : Nat × Nat × Nat × Nat) (i : Nat) :
    Nat × Nat × Nat × Nat :=
  let a := st.1
  let b := st.2.1
  let c := st.2.2.1
  let d := st.2.2.2
  let mask := 4294967295
  let f :=
    if i < 16 then (b &&& c) ||| ((b ^^^ mask) &&& d)
    else if i < 32 then (d &&& b) ||| ((d ^^^ mask) &&& c)
    else if i < 48 then b ^^^ c ^^^ d
    else c ^^^ (b ||| (d ^^^ mask))
  let g :=
    if i < 16 then i
    else if i < 32 then (5 * i + 1) % 16
    else if i < 48 then (3 * i + 5) % 16
    else (7 * i) % 16
  let tmp := (f + a + md5_k i + m g) % 4294967296
  (d, (b + md5_rotl tmp (md5_s i)) % 4294967296, b, c)

/-- Process one 64-byte block starting at the given state. -/
def md5_block (block : List Nat) (st : Nat × Nat × Nat × Nat) :
    Nat × Nat × Nat × Nat :=
  let m := fun g =>
    block.getD (4 * g) 0 + 256 * block.getD (4 * g + 1) 0 +
      65536 * block.getD (4 * g + 2) 0 + 16777216 * block.getD (4 * g + 3) 0
  let r := (List.range 64).foldl (md5_step m) st
  ((st.1 + r.1) % 4294967296, (st.2.1 + r.2.1) % 4294967296,
   (st.2.2.1 + r.2.2.1) % 4294967296, (st.2.2.2 + r.2.2.2) % 4294967296)

/-- Fold the compression function over `n` consecutive 64-byte blocks. -/
def md5_blocks : Nat → List Nat → Nat × Nat × Nat × Nat → Nat × Nat × Nat × Nat
  | 0, _, st => st
  | n + 1, bytes, st => md5_blocks n (bytes.drop 64) (md5_block (bytes.take 64) st)

/-- MD5 padding: append `0x80`, zeros to 56 mod 64, and the 64-bit
little-endian bit length. -/
def md5_pad (msg : List Nat) : List Nat :=
  let n := msg.length
  let zeros := (120 - ((n + 1) % 64)) % 64
  msg ++ [128] ++ List.replicate zeros 0 ++
    ((List.range 8).map (fun i => (((8 * n) % 18446744073709551616) >>> (8 * i)) % 256))

/-- The 16-byte MD5 digest of a byte string. -/
def md5_digest (msg : List Nat) : List Nat :=
  let padded := md5_pad msg
  let st := md5_blocks (padded.length / 64) padded
    (0x67452301, 0xefcdab89, 0x98badcfe, 0x10325476)
  ((List.range 4).map (fun i => (st.1 >>> (8 * i)) % 256)) ++
    ((List.range 4).map (fun i => (st.2.1 >>> (8 * i)) % 256)) ++
    ((List.range 4).map (fun i => (st.2.2.1 >>> (8 * i)) % 256)) ++
    ((List.range 4).map (fun i => (st.2.2.2 >>> (8 * i)) % 256))

/-- One lowercase hexadecimal digit. -/
def hex_digit (n : Nat) : Char :=
  "0123456789abcdef".toList.getD n '0'

/-- The lowercase hexadecimal rendering `format!("\x7b:x\x7d", digest)` of an
MD5 digest of a byte string. -/
def md5_hex (msg : List Nat) : String :=
  String.mk ((md5_digest msg).foldr (fun b acc => hex_digit (b / 16) :: hex_digit (b % 16) :: acc) [])

/-- Model of `pb::CommandResult`: one response chunk, all fields optional on the wire;
Rust `..Default::default()` corresponds to the field defaults here. -/
structure PbCommandResult where
  errno : Option Int := none
  total_len : Option Nat := none
  pkt_count : Option Nat := none
  content : Option (List Nat) := none
  md5 : Option String := none
deriving DecidableEq

/-- Model of `pb::LinuxNamespace` wire entry. -/
structure LinuxNamespace where
  id : Option Nat := none
  pid : Option Nat := none
  user : Option String := none
  cmd : Option String := none
  ns_type : Option String := none
deriving DecidableEq

/-- Model of `pb::CommandType` of a catalog description on the wire (the `KubeCmd`
payload is dropped by the source when listing). -/
inductive PbCommandType
  | linux
  | kubernetes
deriving DecidableEq

/-- Model of `pb::RemoteCommand`: one catalog entry as described by `ListCommand`. -/
structure RemoteCommand where
  id : Option Nat := none
  cmd : Option String := none
  param_names : List String := []
  output_format : Option OutputFormat := none
  cmd_type : Option PbCommandType := none
deriving DecidableEq

/-- Model of `pb::RemoteExecResponse`: one outbound message.  The agent identity is
modelled as a bare `Nat`. -/
structure RemoteExecResponse where
  agent_id : Option Nat := none
  request_id : Option Nat := none
  errmsg : Option String := none
  commands : List RemoteCommand := []
  linux_namespaces : List LinuxNamespace := []
  command_result : Option PbCommandResult := none
deriving DecidableEq

/-- Model of `pb::ExecutionType`.  The session supervisor forwards only messages whose
`exec_type` decodes to one of these, so the responder model takes the decoded
value directly. -/
inductive ExecutionType
  | listCommand
  | listNamespace
  | runCommand
deriving DecidableEq

/-- Model of `pb::RemoteExecRequest`: one inbound message, fields as used by the
responder. -/
structure RemoteExecRequest where
  exec_type : ExecutionType
  request_id : Option Nat := none
  command_id : Option Nat := none
  params : List Parameter := []
  linux_ns_pid : Option Nat := none
  batch_len : Option Nat := none
deriving DecidableEq

/-- Model of `struct CommandResult`: the responder-local scratch buffer.  The running
`Md5` hasher state is modelled by the byte string absorbed so far (`digest`);
finalizing it yields `md5_hex digest`. -/
structure CommandResult where
  request_id : Option Nat := none
  errno : Int := 0
  output : List Nat := []
  total_len : Nat := 0
  digest : List Nat := []
deriving DecidableEq

/-- Constant `MIN_BATCH_LEN` from the source. -/
def MIN_BATCH_LEN : Nat := 1024

/-- Model of `Responser::generate_result_batch`: cut the next chunk of at most
`batch_len` bytes off the output buffer, updating the running digest, and
finalize the digest into `md5` on the chunk that empties the buffer.  Returns
the chunk and the updated scratch state, or `none` if the buffer is empty. -/
def generate_result_batch (batch_len : Nat) (r : CommandResult) :
    Option (PbCommandResult × CommandResult) :=
  if r.output = [] then
    none
  else
    let pkt_count := (r.total_len - 1) / batch_len + 1
    if r.output.length ≤ batch_len then
      some ({ errno := some r.errno, total_len := some r.total_len,
              pkt_count := some pkt_count, content := some r.output,
              md5 := some (md5_hex (r.digest ++ r.output)) },
            { r with output := [], digest := [] })
    else
      some ({ errno := some r.errno, total_len := some r.total_len,
              pkt_count := some pkt_count, content := some (r.output.take batch_len) },
            { r with output := r.output.drop batch_len,
                     digest := r.digest ++ r.output.take batch_len })

/-- Fuel-indexed iteration of `generate_result_batch` until the buffer is
empty; with `fuel ≥ r.output.length` and a positive batch length this is the
full chunk sequence the responder drains for one command. -/
def drain_chunks_fuel : Nat → Nat → CommandResult → List PbCommandResult
  | 0, _, _ => []
  | fuel + 1, batch_len, r =>
    match generate_result_batch batch_len r with
    | none => []
    | some (c, r') => c :: drain_chunks_fuel fuel batch_len r'

/-- The chunk sequence obtained by draining `r` completely. -/
def drain_chunks (batch_len : Nat) (r : CommandResult) : List PbCommandResult :=
  drain_chunks_fuel r.output.length batch_len r

/-- The assignment the responder performs on command success with non-empty
stdout (`poll_next`, gate 2): fill the scratch result and reset the digest. -/
def CommandResult.populate (rid : Option Nat) (stdout : List Nat) : CommandResult :=
  { request_id := rid, errno := 0, output := stdout,
    total_len := stdout.length, digest := [] }

/-- The complete `command_result` payload sequence emitted for one successful
`RunCommand`: a single empty `pb::CommandResult` when stdout is empty,
otherwise the drained chunk sequence of the populated scratch buffer. -/
def command_success_chunks (batch_len : Nat) (rid : Option Nat)
    (stdout : List Nat) : List PbCommandResult :=
  if stdout = [] then [{}]
  else drain_chunks batch_len (CommandResult.populate rid stdout)

/-- Model of `enum NsType` from the source. -/
inductive NsType
  | unknown
  | mnt
  | net
  | pid
  | uts
  | ipc
  | user
  | cgroup
  | time
deriving DecidableEq

/-- Model of `NsType::as_str` from the source. -/
def NsType.as_str : NsType → String
  | .unknown => "unknown"
  | .mnt => "mnt"
  | .net => "net"
  | .pid => "pid"
  | .uts => "uts"
  | .ipc => "ipc"
  | .user => "user"
  | .cgroup => "cgroup"
  | .time => "time"

/-- Model of `struct Namespace`: one enumeration entry. -/
structure Namespace where
  id : Nat
  ty : NsType
  nprocs : Nat
  pid : Nat
  user : String
  command : String
deriving DecidableEq

/-- Model of `Namespace::merge` from the source: called on the map-resident entry with
the newly built entry for the same inode. -/
def Namespace.merge (self rhs : Namespace) : Namespace :=
  if self.pid < rhs.pid then
    { self with nprocs := self.nprocs + 1 }
  else
    { rhs with nprocs := rhs.nprocs + 1 }

/-- The entry `lsns` builds for one process/namespace pair before upserting
(`nprocs` starts at 1). -/
def fresh_namespace_entry (nsid : Nat) (ty : NsType) (pid : Nat)
    (user command : String) : Namespace :=
  { id := nsid, ty := ty, nprocs := 1, pid := pid, user := user, command := command }

/-- Model of `From<Namespace> for pb::LinuxNamespace`. -/
def Namespace.toPb (ns : Namespace) : LinuxNamespace :=
  { id := some ns.id, pid := some ns.pid, user := some ns.user,
    cmd := some ns.command, ns_type := some ns.ty.as_str }

/-- Rust `format!("\x7b:>w$\x7d", s)`: left-pad with spaces to width `w`
(never truncates). -/
def pad_left (w : Nat) (s : String) : String :=
  String.mk (List.replicate (w - s.length) ' ') ++ s

/-- Rust `format!("\x7b:<w$\x7d", s)`: right-pad with spaces to width `w`
(never truncates). -/
def pad_right (w : Nat) (s : String) : String :=
  s ++ String.mk (List.replicate (w - s.length) ' ')

/-- The `name_width` computed by `write_namespace_table`: the USER column
width. -/
def table_name_width (table : List Namespace) : Nat :=
  max (((table.map (fun n => n.user.length)).max?).getD 0) "USER".length

/-- The header line of `write_namespace_table` (a literal in the source, with
USER padded to `name_width`). -/
def namespace_table_header (name_width : Nat) : String :=
  "        NS TYPE   NPROCS   PID " ++ pad_right name_width "USER" ++ " COMMAND\n"

/-- One data row of `write_namespace_table`:
`format!("\x7b:>10\x7d \x7b:<6\x7d \x7b:>6\x7d \x7b:>5\x7d \x7b:<nw$\x7d \x7b\x7d\n", ...)`. -/
def namespace_table_row (name_width : Nat) (ns : Namespace) : String :=
  pad_left 10 (toString ns.id) ++ " " ++ pad_right 6 ns.ty.as_str ++ " " ++
    pad_left 6 (toString ns.nprocs) ++ " " ++ pad_left 5 (toString ns.pid) ++ " " ++
    pad_right name_width ns.user ++ " " ++ ns.command ++ "\n"

/-- Model of `write_namespace_table`: the full rendered text written to the output. -/
def write_namespace_table (table : List Namespace) : String :=
  namespace_table_header (table_name_width table) ++
    String.join (table.map (namespace_table_row (table_name_width table)))

/-- Start offsets of the six columns within one rendered data row, computed
from the actual rendered cell widths (`pad_left`/`pad_right` never truncate,
so a cell is `max width (length value)` characters wide). -/
def row_column_offsets (name_width : Nat) (ns : Namespace) : List Nat :=
  let w1 := max 10 (toString ns.id).length
  let w2 := max 6 ns.ty.as_str.length
  let w3 := max 6 (toString ns.nprocs).length
  let w4 := max 5 (toString ns.pid).length
  let w5 := max name_width ns.user.length
  [0, w1 + 1, w1 + w2 + 2, w1 + w2 + w3 + 3, w1 + w2 + w3 + w4 + 4,
   w1 + w2 + w3 + w4 + w5 + 5]

/-- Start offsets of the six columns within the header line. -/
def header_column_offsets (name_width : Nat) : List Nat :=
  [0, 11, 18, 25, 31, 32 + max name_width 4]

/-!  Kubernetes executors.  -/

/-- Error type `Error` of the source, messages as rendered by `thiserror`.
Kubernetes and serde errors are carried as plain strings. -/
inductive RError
  | cmdExecFailed (cause : String)
  | cmdFailed (cmd : String) (code : Option Int)
  | paramNotFound (p : String)
  | kubeError (cause : String)
  | serializeError (cause : String)
  | syscallFailed (cause : String)
deriving DecidableEq

/-- The `Display` rendering of `Error` (the `#[error(...)]` format strings). -/
def RError.message : RError → String
  | .cmdExecFailed cause => "command `" ++ cause ++ "` execution failed"
  | .cmdFailed cmd code => "command `" ++ cmd ++ "` failed with code " ++ toString (repr code)
  | .paramNotFound p => "param `" ++ p ++ "` not found"
  | .kubeError cause => "kubernetes failed with " ++ cause
  | .serializeError cause => "serialize failed with " ++ cause
  | .syscallFailed _ => "transparent"

/-- Model of `struct DescribePod`: the serialized describe-pod document.  `pod` is
skipped by serde when `None`; `events` skipped when empty. -/
structure DescribePod (P E : Type) where
  pod : Option P := none
  events : List E := []
deriving DecidableEq

/-- The JSON keys serde emits for a `DescribePod` value, honouring the
`skip_serializing_if` attributes. -/
def describe_pod_serialized_keys {P E : Type} (dp : DescribePod P E) : List String :=
  (if dp.pod.isSome then ["pod"] else []) ++ (if dp.events.isEmpty then [] else ["events"])

/-- The result-combination policy of `kubectl_describe_pod` (lines 1150-1164):
given the outcome of the pod fetch and of the events list, build the document
or surface the pod-fetch error. -/
def describe_pod_combine {P E : Type} (pod : Except String P)
    (events : Except String (List E)) : Except RError (DescribePod P E) :=
  match pod with
  | .ok p => .ok { pod := some p, events := events.toOption.getD [] }
  | .error e =>
    match events with
    | .ok evs => .ok { pod := none, events := evs }
    | .error _ => .error (.kubeError e)

/-- The `kubectl_execute` parameter extraction: scan params assigning the last
`ns`/`pod` values seen (a present key with an absent value resets the slot,
as in the source). -/
def kube_extract (params : List Parameter) : Option String × Option String :=
  params.foldl
    (fun (acc : Option String × Option String) p =>
      match p.key with
      | some k =>
        if k = "ns" then (p.value, acc.2)
        else if k = "pod" then (acc.1, p.value)
        else acc
      | none => acc)
    (none, none)

/-- A pending command future, by what it will run when polled. -/
inductive CmdFuture
  | lsnsCmd
  | kube (k : KubeCmd) (ns : String) (pod : String)
  | spawn (prog : String) (args : List String)
deriving DecidableEq

/-- Model of `kubectl_execute`: requires `ns` and `pod` parameters; returns the future
to poll or a `ParamNotFound` error. -/
def kubectl_execute (k : KubeCmd) (params : List Parameter) :
    Except RError CmdFuture :=
  match kube_extract params with
  | (none, _) => .error (.paramNotFound "ns")
  | (some _, none) => .error (.paramNotFound "pod")
  | (some ns, some pod) => .ok (.kube k ns pod)

/-- Model of `std::process::Output` as used by the responder: exit-status success flag,
exit code if any, and captured stdout bytes. -/
structure SpawnOutput where
  success : Bool
  code : Option Int := none
  stdout : List Nat := []
deriving DecidableEq

/-- Host-visible actions of the run-command path, recorded in order. -/
inductive Effect
  | setNetns (pid : Nat)
  | spawned (prog : String) (args : List String)
  | resetNetns
deriving DecidableEq

/-- Argv substitution for a local command (`poll_next`, RunCommand arm):
tokens beginning with `$` are replaced by the value of the parameter with the
matching key; a missing parameter aborts with that token.  Keys and values of
the parameters in scope are present, `is_valid` having already passed. -/
def subst_args (params : List Parameter) : List String → Except String (List String)
  | [] => .ok []
  | arg :: rest =>
    if starts_with_dollar arg then
      match params.find? (fun p => p.key = some (drop_sigil arg)) with
      | some p => (subst_args params rest).map (fun t => p.value.getD "" :: t)
      | none => .error arg
    else
      (subst_args params rest).map (fun t => arg :: t)

/-- Split the template into program and substituted argv.  Catalog templates
are never empty, so the empty case is unreachable. -/
def build_args (cmdline : String) (params : List Parameter) :
    Except String (String × List String) :=
  match split_whitespace cmdline with
  | [] => .error ""
  | prog :: rest => (subst_args params rest).map (fun args => (prog, args))

/-- The environment a single responder wake-up observes: agent identity and
pid, what each future would resolve to if polled now (`none` = still
pending), the outcome of opening `/proc/<pid>/ns/net`, and whether the
heartbeat interval has elapsed. -/
structure Env where
  agentId : Nat
  agentPid : Nat
  cmdPoll : CmdFuture → Option (Except RError SpawnOutput)
  lsnsPoll : Option (Except RError (List LinuxNamespace))
  openNetns : Nat → Except String Unit
  heartbeatReady : Bool

/-- The responder state (`struct Responser` plus its intake channel): batch
length, scratch result, the at-most-one pending command and namespace-listing
futures, the queued inbound messages, whether the channel sender closed, and
the host effects performed so far (model instrumentation). -/
structure RState where
  batch_len : Nat
  result : CommandResult := {}
  pending_command : Option (Option Nat × Nat × CmdFuture) := none
  pending_lsns : Option (Option Nat) := none
  queue : List RemoteExecRequest := []
  closed : Bool := false
  effects : List Effect := []
deriving DecidableEq

/-- Model of `Responser::command_failed_helper`: a single terminal error response with
`errmsg` set and an otherwise-empty `command_result` carrying the errno when
known. -/
def command_failed_helper (aid : Nat) (request_id : Option Nat)
    (code : Option Int) (msg : String) : RemoteExecResponse :=
  { agent_id := some aid, request_id := request_id, errmsg := some msg,
    command_result := some { errno := code } }

/-- The `ListCommand` arm of `poll_next`: describe the catalog. -/
def list_command_response (aid : Nat) (rid : Option Nat) : RemoteExecResponse :=
  { agent_id := some aid, request_id := rid,
    commands := all_supported_commands.enum.map (fun ic =>
      { id := some ic.1,
        cmd := some (if ic.2.desc = "" then ic.2.cmdline else ic.2.desc),
        param_names := (split_whitespace ic.2.cmdline).filterMap
          (fun seg => if starts_with_dollar seg then some (drop_sigil seg) else none),
        output_format := some ic.2.output_format,
        cmd_type := some (match ic.2.command_type with
          | .linux => PbCommandType.linux
          | .kubernetes _ => PbCommandType.kubernetes) }) }

/-- The namespace-file acquisition of the RunCommand arm: open
`/proc/<pid>/ns/net` only when a foreign pid is given; on failure return the
error message of the immediate error response. -/
def nsfile_open (env : Env) (m : RemoteExecRequest) : Except String (Option Nat) :=
  match m.linux_ns_pid with
  | some pid =>
    if pid ≠ env.agentPid then
      match env.openNetns pid with
      | .ok _ => .ok (some pid)
      | .error e =>
        .error ("open namespace file /proc/" ++ toString pid ++ "/ns/net failed: " ++ e)
    else .ok none
  | none => .ok none

/-- The `batch_len` update at the head of the RunCommand arm. -/
def apply_batch_len (m : RemoteExecRequest) (s : RState) : RState :=
  match m.batch_len with
  | some b => { s with batch_len := max MIN_BATCH_LEN b }
  | none => s

/-- Result of dispatching one `RunCommand` message: an immediate response if
any, the updated responder state, and the host effects performed. -/
structure RunOutcome where
  response : Option RemoteExecResponse
  state : RState
  effects : List Effect
deriving DecidableEq

/-- The `RunCommand` arm of `poll_next` (lines 592-728): update `batch_len`,
check the command id, truncate and validate parameters, open the target
namespace file, then register the in-process `lsns` future, the Kubernetes
future, or enter/spawn/leave for a local command. -/
def handle_run (env : Env) (m : RemoteExecRequest) (s0 : RState) : RunOutcome :=
  let s := apply_batch_len m s0
  match m.command_id with
  | none =>
    ⟨some (command_failed_helper env.agentId m.request_id none
      "command_id not specified"), s, []⟩
  | some cmd_id =>
    match get_cmd cmd_id with
    | none =>
      ⟨some (command_failed_helper env.agentId m.request_id none
        "command_id not specified or invalid in run command request"), s, []⟩
    | some cmd =>
      let params := m.params.take (min m.params.length max_param_nums)
      if Params.is_valid params = false then
        ⟨some (command_failed_helper env.agentId m.request_id none
          ("rejected run command '" ++ cmd.cmdline ++ "' with invalid params: " ++
            params_debug params)), s, []⟩
      else
        match nsfile_open env m with
        | .error msg =>
          ⟨some (command_failed_helper env.agentId m.request_id none msg), s, []⟩
        | .ok nsfile =>
          if cmd.cmdline = "lsns" then
            ⟨none, { s with pending_command := some (m.request_id, cmd_id, .lsnsCmd) }, []⟩
          else
            match cmd.command_type with
            | .kubernetes kcmd =>
              match kubectl_execute kcmd params with
              | .ok fut =>
                ⟨none, { s with pending_command := some (m.request_id, cmd_id, fut) }, []⟩
              | .error e =>
                ⟨some (command_failed_helper env.agentId m.request_id none e.message),
                  s, []⟩
            | .linux =>
              match build_args cmd.cmdline params with
              | .error arg =>
                ⟨some (command_failed_helper env.agentId m.request_id none
                  ("parameter " ++ arg ++ " not found in command '" ++ cmd.cmdline ++ "'")),
                  s, []⟩
              | .ok pa =>
                ⟨none,
                  { s with pending_command := some (m.request_id, cmd_id, .spawn pa.1 pa.2) },
                  (match nsfile with
                   | some pid => [Effect.setNetns pid]
                   | none => []) ++
                    [Effect.spawned pa.1 pa.2] ++
                    (match nsfile with
                     | some _ => [Effect.resetNetns]
                     | none => [])⟩

/-- Resolution of a completed command future (`poll_next`, gate 2): either an
immediate response (empty-stdout success or failure) or, on success with
output, the `(request_id, stdout)` with which the scratch result is
populated. -/
def resolve_command (aid : Nat) (rid : Option Nat) (id : Nat)
    (res : Except RError SpawnOutput) :
    RemoteExecResponse ⊕ (Option Nat × List Nat) :=
  match res with
  | .ok o =>
    if o.success then
      if o.stdout = [] then
        .inl { agent_id := some aid, request_id := rid, command_result := some {} }
      else
        .inr (rid, o.stdout)
    else
      match o.code with
      | some c =>
        .inl (command_failed_helper aid rid (some c)
          ("command '" ++ (get_cmdline id).getD "" ++ "' failed with " ++ toString c))
      | none =>
        .inl (command_failed_helper aid rid none
          ("command '" ++ (get_cmdline id).getD "" ++ "' execute terminated without errno"))
  | .error e =>
    .inl (command_failed_helper aid rid none
      ("command '" ++ (get_cmdline id).getD "" ++ "' execute failed: " ++ e.message))

/-- Resolution of a completed namespace-listing future (`poll_next`, gate 3).
Note the error response carries `errmsg` only — no `command_result`. -/
def resolve_lsns (aid : Nat) (rid : Option Nat)
    (res : Except RError (List LinuxNamespace)) : RemoteExecResponse :=
  match res with
  | .ok nss =>
    { agent_id := some aid, request_id := rid, linux_namespaces := nss }
  | .error e =>
    { agent_id := some aid, request_id := rid, errmsg := some e.message }

/-- Which gate of `poll_next` produced a response (model instrumentation). -/
inductive Gate
  | drain
  | command
  | lsns
  | intake
  | heartbeat
deriving DecidableEq

/-- The value of one `poll_next` call. -/
inductive PollOut
  | pending
  | ended
  | ready (g : Gate) (r : RemoteExecResponse)
deriving DecidableEq

/-- Model of `Responser::poll_next`: one wake-up of the responder, evaluating the five
gates in strict priority order and restarting from the top on every state
transition (`continue` in the source).  `fuel` bounds the number of loop
iterations; `none` means the bound was hit (the source loop always
terminates, each iteration consuming a pending future or a queued message). -/
def pollNext : Nat → Env → RState → Option (PollOut × RState)
  | 0, _, _ => none
  | fuel + 1, env, s =>
    match generate_result_batch s.batch_len s.result with
    | some br =>
      some (.ready .drain
        { agent_id := some env.agentId, request_id := br.2.request_id,
          command_result := some br.1 },
        { s with result := br.2 })
    | none =>
      match s.pending_command.bind (fun pc => (env.cmdPoll pc.2.2).map (fun res =>
          (pc.1, pc.2.1, res))) with
      | some rr =>
        let s1 := { s with pending_command := none }
        match resolve_command env.agentId rr.1 rr.2.1 rr.2.2 with
        | .inl resp => some (.ready .command resp, s1)
        | .inr rs => pollNext fuel env { s1 with result := CommandResult.populate rs.1 rs.2 }
      | none =>
        match s.pending_lsns.bind (fun rid => env.lsnsPoll.map (fun res => (rid, res))) with
        | some lr =>
          some (.ready .lsns (resolve_lsns env.agentId lr.1 lr.2),
            { s with pending_lsns := none })
        | none =>
          match s.queue with
          | m :: rest =>
            let s2 := { s with queue := rest }
            match m.exec_type with
            | .listCommand =>
              some (.ready .intake (list_command_response env.agentId m.request_id), s2)
            | .listNamespace =>
              pollNext fuel env { s2 with pending_lsns := some m.request_id }
            | .runCommand =>
              match handle_run env m s2 with
              | ⟨some resp, s3, effs⟩ =>
                some (.ready .intake resp, { s3 with effects := s3.effects ++ effs })
              | ⟨none, s3, effs⟩ =>
                pollNext fuel env { s3 with effects := s3.effects ++ effs }
          | [] =>
            if s.closed then some (.ended, s)
            else if env.heartbeatReady then
              some (.ready .heartbeat { agent_id := some env.agentId }, s)
            else some (.pending, s)

/-!  Lemmas about chunk draining.  -/

theorem generate_result_batch_eq_none {bl : Nat} {r : CommandResult} :
    generate_result_batch bl r = none ↔ r.output = [] := by
  unfold generate_result_batch
  split
  · simp [*]
  · split <;> simp [*]

theorem generate_result_batch_last {bl : Nat} {r : CommandResult}
    (h : r.output ≠ []) (hle : r.output.length ≤ bl) :
    generate_result_batch bl r =
      some ({ errno := some r.errno, total_len := some r.total_len,
              pkt_count := some ((r.total_len - 1) / bl + 1),
              content := some r.output,
              md5 := some (md5_hex (r.digest ++ r.output)) },
            { r with output := [], digest := [] }) := by
  unfold generate_result_batch
  simp [h, hle]

theorem generate_result_batch_step {bl : Nat} {r : CommandResult}
    (hgt : bl < r.output.length) :
    generate_result_batch bl r =
      some ({ errno := some r.errno, total_len := some r.total_len,
              pkt_count := some ((r.total_len - 1) / bl + 1),
              content := some (r.output.take bl) },
            { r with output := r.output.drop bl,
                     digest := r.digest ++ r.output.take bl }) := by
  have h : r.output ≠ [] := by
    intro he
    rw [he] at hgt
    simp at hgt
  unfold generate_result_batch
  simp [h, Nat.not_le.mpr hgt]

/-- The scratch state after one non-final `generate_result_batch` cut. -/
def drained_result (bl : Nat) (r : CommandResult) : CommandResult :=
  { r with output := r.output.drop bl, digest := r.digest ++ r.output.take bl }

theorem drain_chunks_fuel_spec (bl : Nat) (hbl : 0 < bl) :
    ∀ fuel r, r.output ≠ [] → r.output.length ≤ fuel →
      (drain_chunks_fuel fuel bl r).length = (r.output.length - 1) / bl + 1 ∧
      ((drain_chunks_fuel fuel bl r).map (fun c => c.content.getD [])).flatten
        = r.output ∧
      (∀ c ∈ drain_chunks_fuel fuel bl r,
        c.errno = some r.errno ∧ c.total_len = some r.total_len ∧
        c.pkt_count = some ((r.total_len - 1) / bl + 1) ∧ c.content.isSome) ∧
      (∀ c ∈ (drain_chunks_fuel fuel bl r).dropLast, c.md5 = none) ∧
      ∃ cl, (drain_chunks_fuel fuel bl r).getLast? = some cl ∧
        cl.md5 = some (md5_hex (r.digest ++ r.output)) := by
  intro fuel
  induction fuel with
  | zero =>
    intro r h hle
    have : r.output = [] := List.eq_nil_of_length_eq_zero (Nat.le_zero.mp hle)
    exact absurd this h
  | succ fuel ih =>
    intro r h hle
    by_cases hc : r.output.length ≤ bl
    · -- final chunk: the buffer fits in one batch
      have hgen := generate_result_batch_last h hc
      have hr' : (drain_chunks_fuel fuel bl { r with output := [], digest := [] })
          = [] := by
        cases fuel with
        | zero => rfl
        | succ n =>
          show (match generate_result_batch bl { r with output := [], digest := [] } with
            | none => []
            | some (c, r') => c :: drain_chunks_fuel n bl r') = []
          rw [generate_result_batch_eq_none.mpr rfl]
      have hcons : drain_chunks_fuel (fuel + 1) bl r =
          { errno := some r.errno, total_len := some r.total_len,
            pkt_count := some ((r.total_len - 1) / bl + 1),
            content := some r.output,
            md5 := some (md5_hex (r.digest ++ r.output)) } ::
            drain_chunks_fuel fuel bl { r with output := [], digest := [] } := by
        rw [show drain_chunks_fuel (fuel + 1) bl r =
            (match generate_result_batch bl r with
              | none => []
              | some (c, r') => c :: drain_chunks_fuel fuel bl r') from rfl, hgen]
      rw [hcons, hr']
      have hlen1 : (r.output.length - 1) / bl = 0 := by
        apply Nat.div_eq_of_lt
        have := List.length_pos.mpr h
        omega
      refine ⟨by simp [hlen1], by simp, ?_, by simp, ?_⟩
      · intro c hcmem
        simp at hcmem
        subst hcmem
        simp
      · exact ⟨_, rfl, rfl⟩
    · -- non-final chunk
      push_neg at hc
      have hgen := generate_result_batch_step hc
      have hlen' : (drained_result bl r).output.length = r.output.length - bl := by
        simp [drained_result]
      have hne' : (drained_result bl r).output ≠ [] := by
        intro he
        rw [he] at hlen'
        simp at hlen'
        omega
      have hle' : (drained_result bl r).output.length ≤ fuel := by
        rw [hlen']
        omega
      obtain ⟨ihlen, ihjoin, ihfields, ihdrop, cl, ihlast, ihmd5⟩ :=
        ih (drained_result bl r) hne' hle'
      have hcons : drain_chunks_fuel (fuel + 1) bl r =
          { errno := some r.errno, total_len := some r.total_len,
            pkt_count := some ((r.total_len - 1) / bl + 1),
            content := some (r.output.take bl) } ::
            drain_chunks_fuel fuel bl (drained_result bl r) := by
        rw [show drain_chunks_fuel (fuel + 1) bl r =
            (match generate_result_batch bl r with
              | none => []
              | some (c, rr) => c :: drain_chunks_fuel fuel bl rr) from rfl, hgen]
        rfl
      have hne_cs : drain_chunks_fuel fuel bl (drained_result bl r) ≠ [] := by
        intro he
        rw [he] at ihlast
        simp at ihlast
      obtain ⟨a, tl, hatl⟩ := List.exists_cons_of_ne_nil hne_cs
      rw [hcons]
      refine ⟨?_, ?_, ?_, ?_, ?_⟩
      · -- length
        simp only [List.length_cons]
        rw [ihlen]
        simp only [drained_result, List.length_drop]
        have heq : r.output.length - 1 = (r.output.length - bl - 1) + bl := by omega
        rw [heq, Nat.add_div_right _ hbl]
      · -- concatenation
        simp only [List.map_cons, List.flatten_cons, Option.getD_some]
        rw [ihjoin]
        simp only [drained_result]
        exact List.take_append_drop bl r.output
      · -- per-chunk fields
        intro c hcmem
        rcases List.mem_cons.mp hcmem with hh | ht
        · subst hh
          simp
        · have := ihfields c ht
          simpa [drained_result] using this
      · -- md5 absent on all but the last
        intro c hcmem
        rw [hatl] at hcmem
        simp only [List.dropLast_cons₂] at hcmem
        rcases List.mem_cons.mp hcmem with hh | ht
        · subst hh
          rfl
        · have := ihdrop c
          rw [hatl] at this
          exact this ht
      · -- md5 on the last chunk
        refine ⟨cl, ?_, ?_⟩
        · rw [hatl, List.getLast?_cons_cons, ← hatl]
          exact ihlast
        · have harr : (r.digest ++ r.output.take bl) ++ r.output.drop bl
              = r.digest ++ r.output := by
            rw [List.append_assoc, List.take_append_drop]
          simp only [drained_result] at ihmd5
          rw [← harr]
          exact ihmd5

theorem drain_chunks_fuel_nil {bl : Nat} {r : CommandResult} (h : r.output = []) :
    ∀ fuel, drain_chunks_fuel fuel bl r = [] := by
  intro fuel
  cases fuel with
  | zero => rfl
  | succ n =>
    show (match generate_result_batch bl r with
      | none => []
      | some (c, r') => c :: drain_chunks_fuel n bl r') = []
    rw [generate_result_batch_eq_none.mpr h]

theorem drain_chunks_fuel_congr (bl : Nat) (hbl : 0 < bl) :
    ∀ f1 f2 r, r.output.length ≤ f1 → r.output.length ≤ f2 →
      drain_chunks_fuel f1 bl r = drain_chunks_fuel f2 bl r := by
  intro f1
  induction f1 with
  | zero =>
    intro f2 r h1 _
    have hnil : r.output = [] := List.eq_nil_of_length_eq_zero (Nat.le_zero.mp h1)
    rw [drain_chunks_fuel_nil hnil, drain_chunks_fuel_nil hnil]
  | succ n ih =>
    intro f2 r h1 h2
    by_cases hnil : r.output = []
    · rw [drain_chunks_fuel_nil hnil, drain_chunks_fuel_nil hnil]
    · cases f2 with
      | zero =>
        have : r.output = [] := List.eq_nil_of_length_eq_zero (Nat.le_zero.mp h2)
        exact absurd this hnil
      | succ m =>
        by_cases hc : r.output.length ≤ bl
        · have hgen := generate_result_batch_last hnil hc
          have e1 : drain_chunks_fuel (n + 1) bl r =
              (match generate_result_batch bl r with
                | none => []
                | some (c, rr) => c :: drain_chunks_fuel n bl rr) := rfl
          have e2 : drain_chunks_fuel (m + 1) bl r =
              (match generate_result_batch bl r with
                | none => []
                | some (c, rr) => c :: drain_chunks_fuel m bl rr) := rfl
          rw [e1, e2]
          simp only [hgen]
          have hz : (({ r with output := [], digest := [] } :
              CommandResult)).output = [] := rfl
          rw [drain_chunks_fuel_nil hz, drain_chunks_fuel_nil hz]
        · push_neg at hc
          have hgen := generate_result_batch_step hc
          have e1 : drain_chunks_fuel (n + 1) bl r =
              (match generate_result_batch bl r with
                | none => []
                | some (c, rr) => c :: drain_chunks_fuel n bl rr) := rfl
          have e2 : drain_chunks_fuel (m + 1) bl r =
              (match generate_result_batch bl r with
                | none => []
                | some (c, rr) => c :: drain_chunks_fuel m bl rr) := rfl
          rw [e1, e2]
          simp only [hgen]
          have hlen : (drained_result bl r).output.length = r.output.length - bl := by
            simp [drained_result]
          have := ih m (drained_result bl r) (by rw [hlen]; omega) (by rw [hlen]; omega)
          show _ :: drain_chunks_fuel n bl (drained_result bl r)
            = _ :: drain_chunks_fuel m bl (drained_result bl r)
          rw [this]

theorem drain_chunks_fuel_eq (bl : Nat) (hbl : 0 < bl) {fuel : Nat}
    {r : CommandResult} (h : r.output.length ≤ fuel) :
    drain_chunks_fuel fuel bl r = drain_chunks bl r :=
  drain_chunks_fuel_congr bl hbl fuel r.output.length r h (Nat.le_refl _)

theorem drain_chunks_cons (bl : Nat) (hbl : 0 < bl) {r : CommandResult}
    (h : r.output ≠ []) :
    ∃ c r', generate_result_batch bl r = some (c, r') ∧
      drain_chunks bl r = c :: drain_chunks bl r' := by
  by_cases hc : r.output.length ≤ bl
  · have hgen := generate_result_batch_last h hc
    refine ⟨_, _, hgen, ?_⟩
    obtain ⟨n, hn⟩ : ∃ n, r.output.length = n + 1 := by
      cases hl : r.output.length with
      | zero => exact absurd (List.eq_nil_of_length_eq_zero hl) h
      | succ n => exact ⟨n, rfl⟩
    have e1 : drain_chunks bl r = drain_chunks_fuel (n + 1) bl r := by
      rw [drain_chunks, hn]
    have e2 : drain_chunks_fuel (n + 1) bl r =
        (match generate_result_batch bl r with
          | none => []
          | some (c, rr) => c :: drain_chunks_fuel n bl rr) := rfl
    rw [e1, e2]
    simp only [hgen]
    have hz : (({ r with output := [], digest := [] } : CommandResult)).output = [] := rfl
    rw [drain_chunks_fuel_nil hz]
    show _ = _ :: drain_chunks bl { r with output := [], digest := [] }
    rw [show drain_chunks bl ({ r with output := [], digest := [] } : CommandResult)
      = drain_chunks_fuel 0 bl { r with output := [], digest := [] } from rfl]
    rw [drain_chunks_fuel_nil hz]
  · push_neg at hc
    have hgen := generate_result_batch_step hc
    refine ⟨_, _, hgen, ?_⟩
    obtain ⟨n, hn⟩ : ∃ n, r.output.length = n + 1 := by
      cases hl : r.output.length with
      | zero => exact absurd (List.eq_nil_of_length_eq_zero hl) h
      | succ n => exact ⟨n, rfl⟩
    have e1 : drain_chunks bl r = drain_chunks_fuel (n + 1) bl r := by
      rw [drain_chunks, hn]
    have e2 : drain_chunks_fuel (n + 1) bl r =
        (match generate_result_batch bl r with
          | none => []
          | some (c, rr) => c :: drain_chunks_fuel n bl rr) := rfl
    rw [e1, e2]
    simp only [hgen]
    have hlen : (drained_result bl r).output.length = r.output.length - bl := by
      simp [drained_result]
    have : drain_chunks_fuel n bl (drained_result bl r)
        = drain_chunks bl (drained_result bl r) := by
      apply drain_chunks_fuel_eq bl hbl
      rw [hlen]
      omega
    show _ :: drain_chunks_fuel n bl (drained_result bl r) = _
    rw [this]
    rfl

/-- Gate 1 of `poll_next` in isolation: a non-empty buffer always produces the
next drain chunk, independent of the rest of the environment. -/
theorem pollNext_drain_step (env : Env) (fuel : Nat) (s : RState)
    (h : s.result.output ≠ []) :
    ∃ c r', generate_result_batch s.batch_len s.result = some (c, r') ∧
      pollNext (fuel + 1) env s = some (.ready .drain
        { agent_id := some env.agentId, request_id := r'.request_id,
          command_result := some c },
        { s with result := r' }) := by
  cases hg : generate_result_batch s.batch_len s.result with
  | none => exact absurd (generate_result_batch_eq_none.mp hg) h
  | some br =>
    refine ⟨br.1, br.2, rfl, ?_⟩
    simp only [pollNext]
    rw [hg]

example : max_param_nums = 2 := by decide

/-- C1: for every successful `RunCommand` whose captured stdout has length
`L`, the responder emits exactly `⌈max(L,1)/batch_len⌉` chunk responses
(exactly one empty `CommandResult` when `L = 0`); the concatenation of the
`content` fields equals the stdout bytes; every chunk of a non-empty stdout
carries `total_len = L` and the same `pkt_count = ⌈L/batch_len⌉`; only the
final chunk carries `md5`, equal to the lowercase hex MD5 digest of the
concatenation.  The last three conjuncts tie the chunk list to the state
machine: empty-stdout success resolves to the single empty result, non-empty
success populates the scratch buffer, and each wake-up with a non-empty
buffer emits exactly the next drain chunk, for every environment. -/
theorem c1_run_command_chunking (bl : Nat) (rid : Option Nat)
    (stdout : List Nat) (hbl : 0 < bl) :
    ((command_success_chunks bl rid stdout).length
        = (max stdout.length 1 - 1) / bl + 1) ∧
    (stdout = [] → command_success_chunks bl rid stdout = [{}]) ∧
    (((command_success_chunks bl rid stdout).map
        (fun c => c.content.getD [])).flatten = stdout) ∧
    (stdout ≠ [] → ∀ c ∈ command_success_chunks bl rid stdout,
      c.errno = some 0 ∧ c.total_len = some stdout.length ∧
      c.pkt_count = some ((stdout.length - 1) / bl + 1) ∧ c.content.isSome) ∧
    (∀ c ∈ (command_success_chunks bl rid stdout).dropLast, c.md5 = none) ∧
    (stdout ≠ [] →
      ∃ cl, (command_success_chunks bl rid stdout).getLast? = some cl ∧
        cl.md5 = some (md5_hex stdout)) ∧
    (∀ (o : SpawnOutput) (aid : Nat) (rid2 : Option Nat) (id : Nat),
      o.success = true → o.stdout = [] →
      resolve_command aid rid2 id (.ok o)
        = .inl { agent_id := some aid, request_id := rid2,
                 command_result := some {} }) ∧
    (∀ (o : SpawnOutput) (aid : Nat) (rid2 : Option Nat) (id : Nat),
      o.success = true → o.stdout ≠ [] →
      resolve_command aid rid2 id (.ok o) = .inr (rid2, o.stdout)) ∧
    (∀ (env : Env) (fuel : Nat) (s : RState), s.result.output ≠ [] →
      ∃ c r', generate_result_batch s.batch_len s.result = some (c, r') ∧
        pollNext (fuel + 1) env s = some (.ready .drain
          { agent_id := some env.agentId, request_id := r'.request_id,
            command_result := some c }, { s with result := r' }) ∧
        (0 < s.batch_len →
          drain_chunks s.batch_len s.result
            = c :: drain_chunks s.batch_len r')) := by
  have hresolve_empty : ∀ (o : SpawnOutput) (aid : Nat) (rid2 : Option Nat) (id : Nat),
      o.success = true → o.stdout = [] →
      resolve_command aid rid2 id (.ok o)
        = .inl { agent_id := some aid, request_id := rid2,
                 command_result := some {} } := by
    intro o aid rid2 id h1 h2
    simp [resolve_command, h1, h2]
  have hresolve_full : ∀ (o : SpawnOutput) (aid : Nat) (rid2 : Option Nat) (id : Nat),
      o.success = true → o.stdout ≠ [] →
      resolve_command aid rid2 id (.ok o) = .inr (rid2, o.stdout) := by
    intro o aid rid2 id h1 h2
    simp [resolve_command, h1, h2]
  have hpoll : ∀ (env : Env) (fuel : Nat) (s : RState), s.result.output ≠ [] →
      ∃ c r', generate_result_batch s.batch_len s.result = some (c, r') ∧
        pollNext (fuel + 1) env s = some (.ready .drain
          { agent_id := some env.agentId, request_id := r'.request_id,
            command_result := some c }, { s with result := r' }) ∧
        (0 < s.batch_len →
          drain_chunks s.batch_len s.result = c :: drain_chunks s.batch_len r') := by
    intro env fuel s hne
    obtain ⟨c, r', hg, hp⟩ := pollNext_drain_step env fuel s hne
    refine ⟨c, r', hg, hp, ?_⟩
    intro hbl2
    obtain ⟨c2, r2, hg2, hd⟩ := drain_chunks_cons s.batch_len hbl2 hne
    rw [hg] at hg2
    have hpair := Option.some.inj hg2
    have hc2 : c = c2 := congrArg Prod.fst hpair
    have hr2 : r' = r2 := congrArg Prod.snd hpair
    rw [hd, ← hc2, ← hr2]
  by_cases hs : stdout = []
  · subst hs
    refine ⟨by simp [command_success_chunks], fun _ => rfl, ?_,
      fun hne => absurd rfl hne, ?_, fun hne => absurd rfl hne,
      hresolve_empty, hresolve_full, hpoll⟩
    · simp [command_success_chunks]
    · simp [command_success_chunks]
  · have hlenpos : 0 < stdout.length := List.length_pos.mpr hs
    have hcsc : command_success_chunks bl rid stdout
        = drain_chunks bl (CommandResult.populate rid stdout) := by
      simp [command_success_chunks, hs]
    have hpopne : (CommandResult.populate rid stdout).output ≠ [] := hs
    have hfuel : (CommandResult.populate rid stdout).output.length
        ≤ stdout.length := Nat.le_refl _
    obtain ⟨hlen, hjoin, hfields, hdrop, cl, hlast, hmd5⟩ :=
      drain_chunks_fuel_spec bl hbl stdout.length
        (CommandResult.populate rid stdout) hpopne hfuel
    have hdc : drain_chunks bl (CommandResult.populate rid stdout)
        = drain_chunks_fuel stdout.length bl (CommandResult.populate rid stdout) := rfl
    have hmax : max stdout.length 1 = stdout.length := by omega
    refine ⟨?_, fun he => absurd he hs, ?_, ?_, ?_, ?_,
      hresolve_empty, hresolve_full, hpoll⟩
    · rw [hcsc, hdc, hlen, hmax]
      rfl
    · rw [hcsc, hdc, hjoin]
      rfl
    · intro _ c hc
      rw [hcsc, hdc] at hc
      have := hfields c hc
      simpa [CommandResult.populate] using this
    · intro c hc
      rw [hcsc, hdc] at hc
      exact hdrop c hc
    · intro _
      refine ⟨cl, ?_, ?_⟩
      · rw [hcsc, hdc]
        exact hlast
      · simpa [CommandResult.populate] using hmd5

/-- Witness for C1 at `batch_len = 2` and a 3-byte stdout. -/
theorem c1_run_command_chunking_witness :
    (command_success_chunks 2 (some 11) [97, 98, 99]).length
      = (max ([97, 98, 99] : List Nat).length 1 - 1) / 2 + 1 :=
  (c1_run_command_chunking 2 (some 11) [97, 98, 99] (by decide)).1

theorem pollNext_heartbeat_shape :
    ∀ (fuel : Nat) (env : Env) (s : RState) (r : RemoteExecResponse) (s' : RState),
      pollNext fuel env s = some (.ready .heartbeat r, s') →
      s.result.output = [] ∧ r = { agent_id := some env.agentId } := by
  intro fuel
  induction fuel with
  | zero =>
    intro env s r s' h
    simp [pollNext] at h
  | succ n ih =>
    intro env s r s' h
    cases hgen : generate_result_batch s.batch_len s.result with
    | some br =>
      simp only [pollNext, hgen] at h
      simp at h
    | none =>
      simp only [pollNext, hgen] at h
      refine ⟨generate_result_batch_eq_none.mp hgen, ?_⟩
      split at h
      · -- gate 2: a command future resolved
        split at h
        · simp at h
        · exact (ih _ _ _ _ h).2
      · split at h
        · -- gate 3: the namespace-listing future resolved
          simp at h
        · split at h
          · -- gate 4: a message was dequeued
            split at h
            · simp at h
            · exact (ih _ _ _ _ h).2
            · split at h
              · simp at h
              · exact (ih _ _ _ _ h).2
          · -- gate 5
            split at h
            · simp at h
            · split at h
              · simp at h
                exact h.1.symm
              · simp at h

/-- C7: whenever the responder's output buffer is non-empty at a wake-up, the
next emitted response is a chunk for the in-progress request (gate 1 fires
before anything else, for every environment), never a heartbeat; a heartbeat
response, carrying only the agent identity, can be produced only from a state
whose buffer is empty. -/
theorem c7_no_heartbeat_inside_stream :
    (∀ (env : Env) (fuel : Nat) (s : RState), s.result.output ≠ [] →
      ∃ c r', generate_result_batch s.batch_len s.result = some (c, r') ∧
        pollNext (fuel + 1) env s = some (.ready .drain
          { agent_id := some env.agentId, request_id := r'.request_id,
            command_result := some c }, { s with result := r' })) ∧
    (∀ (fuel : Nat) (env : Env) (s : RState) (r : RemoteExecResponse) (s' : RState),
      pollNext fuel env s = some (.ready .heartbeat r, s') →
      s.result.output = [] ∧ r = { agent_id := some env.agentId }) :=
  ⟨fun env fuel s h => pollNext_drain_step env fuel s h,
   fun fuel env s r s' h => pollNext_heartbeat_shape fuel env s r s' h⟩

/-- Witness for C7: an idle responder whose heartbeat interval elapsed emits
the heartbeat, and the theorem certifies its buffer was empty. -/
theorem c7_no_heartbeat_inside_stream_witness :
    (({ batch_len := 1024 } : RState)).result.output = [] ∧
      ({ agent_id := some 9 } : RemoteExecResponse) = { agent_id := some 9 } :=
  c7_no_heartbeat_inside_stream.2 1
    { agentId := 9, agentPid := 1, cmdPoll := fun _ => none, lsnsPoll := none,
      openNetns := fun _ => .ok (), heartbeatReady := true }
    { batch_len := 1024 } { agent_id := some 9 } { batch_len := 1024 } (by decide)

theorem handle_run_state_batch_len (env : Env) (m : RemoteExecRequest) (s : RState) :
    (handle_run env m s).state.batch_len = (apply_batch_len m s).batch_len := by
  unfold handle_run
  dsimp only
  repeat' split
  all_goals rfl

theorem apply_batch_len_spec (m : RemoteExecRequest) (s : RState) :
    (apply_batch_len m s).batch_len =
      match m.batch_len with
      | some b => max MIN_BATCH_LEN b
      | none => s.batch_len := by
  unfold apply_batch_len
  split <;> rfl

/-- C8: on every `RunCommand` carrying a `batch_len` field the responder's
batch length becomes `max(requested, MIN_BATCH_LEN)` with
`MIN_BATCH_LEN = 1024` (even when the request is later rejected); when the
field is absent the batch length is unchanged; and each subsequent drain cut
is made with the state's current batch length. -/
theorem c8_batch_len_update :
    MIN_BATCH_LEN = 1024 ∧
    (∀ (env : Env) (m : RemoteExecRequest) (s : RState),
      (handle_run env m s).state.batch_len =
        match m.batch_len with
        | some b => max MIN_BATCH_LEN b
        | none => s.batch_len) ∧
    (∀ (env : Env) (fuel : Nat) (s : RState), s.result.output ≠ [] →
      ∃ c r', generate_result_batch s.batch_len s.result = some (c, r') ∧
        pollNext (fuel + 1) env s = some (.ready .drain
          { agent_id := some env.agentId, request_id := r'.request_id,
            command_result := some c }, { s with result := r' }) ∧
        c.content = some (s.result.output.take (min s.result.output.length s.batch_len))) := by
  refine ⟨rfl, ?_, ?_⟩
  · intro env m s
    rw [handle_run_state_batch_len, apply_batch_len_spec]
  · intro env fuel s h
    obtain ⟨c, r', hg, hp⟩ := pollNext_drain_step env fuel s h
    refine ⟨c, r', hg, hp, ?_⟩
    by_cases hc : s.result.output.length ≤ s.batch_len
    · rw [generate_result_batch_last h hc] at hg
      obtain ⟨hc1, hr1⟩ := Prod.mk.inj (Option.some.inj hg)
      rw [← hc1]
      show some s.result.output
        = some (s.result.output.take (min s.result.output.length s.batch_len))
      rw [min_eq_left hc, List.take_length]
    · push_neg at hc
      rw [generate_result_batch_step hc] at hg
      obtain ⟨hc1, hr1⟩ := Prod.mk.inj (Option.some.inj hg)
      rw [← hc1]
      show some (s.result.output.take s.batch_len)
        = some (s.result.output.take (min s.result.output.length s.batch_len))
      rw [min_eq_right (Nat.le_of_lt hc)]

/-- Witness for C8: a drain step from a two-byte buffer with `batch_len = 1`
cuts exactly the first byte. -/
theorem c8_batch_len_update_witness :
    pollNext 1
      { agentId := 9, agentPid := 1, cmdPoll := fun _ => none, lsnsPoll := none,
        openNetns := fun _ => .ok (), heartbeatReady := false }
      { batch_len := 1,
        result := { request_id := some 3, errno := 0, output := [65, 66],
                    total_len := 2, digest := [] } }
      = some (.ready .drain
          { agent_id := some 9, request_id := some 3,
            command_result := some { errno := some 0, total_len := some 2,
                                     pkt_count := some 2, content := some [65] } },
        { batch_len := 1,
          result := { request_id := some 3, errno := 0, output := [66],
                      total_len := 2, digest := [65] } }) := by
  obtain ⟨c, r', hg, hp, -⟩ := c8_batch_len_update.2.2
    { agentId := 9, agentPid := 1, cmdPoll := fun _ => none, lsnsPoll := none,
      openNetns := fun _ => .ok (), heartbeatReady := false }
    0
    { batch_len := 1,
      result := { request_id := some 3, errno := 0, output := [65, 66],
                  total_len := 2, digest := [] } }
    (by decide)
  have hpair : (some (c, r') : Option (PbCommandResult × CommandResult))
      = some ({ errno := some 0, total_len := some 2, pkt_count := some 2,
                content := some [65] },
              { request_id := some 3, errno := 0, output := [66],
                total_len := 2, digest := [65] }) := by
    rw [← hg]
    decide
  obtain ⟨hc, hr⟩ := Prod.mk.inj (Option.some.inj hpair)
  rw [hc, hr] at hp
  exact hp

theorem nsfile_open_own (env : Env) (m : RemoteExecRequest)
    (h : m.linux_ns_pid = none ∨ m.linux_ns_pid = some env.agentPid) :
    nsfile_open env m = .ok none := by
  unfold nsfile_open
  rcases h with h | h <;> simp [h]

theorem nsfile_open_foreign (env : Env) (m : RemoteExecRequest) (pid : Nat)
    (h : nsfile_open env m = .ok (some pid)) :
    m.linux_ns_pid = some pid ∧ pid ≠ env.agentPid := by
  unfold nsfile_open at h
  cases hn : m.linux_ns_pid with
  | none => simp only [hn] at h; simp at h
  | some p =>
    simp only [hn] at h
    by_cases hp : p = env.agentPid
    · rw [if_neg (fun hne => hne hp)] at h
      simp at h
    · rw [if_pos hp] at h
      cases ho : env.openNetns p with
      | ok u =>
        simp only [ho] at h
        have hpe : p = pid := Option.some.inj (Except.ok.inj h)
        subst hpe
        exact ⟨rfl, hp⟩
      | error e =>
        simp only [ho] at h
        simp at h

/-- Every run-command outcome either performs no host effect at all, or is the
local-spawn path: optionally enter the target namespace, spawn, and (when a
namespace file was opened) leave again — in that order. -/
theorem handle_run_effects_shape (env : Env) (m : RemoteExecRequest) (s : RState) :
    (handle_run env m s).effects = [] ∨
    ∃ prog args nsfile, nsfile_open env m = .ok nsfile ∧
      (handle_run env m s).effects =
        (match nsfile with
         | some pid => [Effect.setNetns pid]
         | none => []) ++ [Effect.spawned prog args] ++
          (match nsfile with
           | some _ => [Effect.resetNetns]
           | none => []) := by
  unfold handle_run
  dsimp only
  repeat' split
  all_goals first
    | exact Or.inl rfl
    | exact Or.inr ⟨_, _, some _, by assumption, rfl⟩
    | exact Or.inr ⟨_, _, none, by assumption, rfl⟩

/-- C5: for a `RunCommand` whose `linux_ns_pid` is absent or equal to the
agent's own pid, `set_netns` is never invoked and the spawn proceeds in the
agent's own namespace; conversely the foreign-namespace path is taken only
when `linux_ns_pid` is present and differs from the agent's pid. -/
theorem c5_netns_only_for_foreign_pid :
    (∀ (env : Env) (m : RemoteExecRequest) (s : RState),
      m.linux_ns_pid = none ∨ m.linux_ns_pid = some env.agentPid →
      ∀ p, Effect.setNetns p ∉ (handle_run env m s).effects) ∧
    (∀ (env : Env) (m : RemoteExecRequest) (s : RState) (p : Nat),
      Effect.setNetns p ∈ (handle_run env m s).effects →
      m.linux_ns_pid = some p ∧ p ≠ env.agentPid) := by
  constructor
  · intro env m s hown p hmem
    rcases handle_run_effects_shape env m s with hnil | ⟨prog, args, nsfile, hns, heff⟩
    · rw [hnil] at hmem
      simp at hmem
    · rw [nsfile_open_own env m hown] at hns
      have hnone : none = nsfile := Except.ok.inj hns
      rw [heff, ← hnone] at hmem
      simp at hmem
  · intro env m s p hmem
    rcases handle_run_effects_shape env m s with hnil | ⟨prog, args, nsfile, hns, heff⟩
    · rw [hnil] at hmem
      simp at hmem
    · cases nsfile with
      | none =>
        rw [heff] at hmem
        simp at hmem
      | some q =>
        rw [heff] at hmem
        simp at hmem
        obtain ⟨h1, h2⟩ := nsfile_open_foreign env m q hns
        subst hmem
        exact ⟨h1, h2⟩

/-- Witness for C5: a local `top` run with `linux_ns_pid` equal to the agent's
own pid performs no namespace switch. -/
theorem c5_netns_only_for_foreign_pid_witness :
    Effect.setNetns 7 ∉
      (handle_run
        { agentId := 9, agentPid := 1, cmdPoll := fun _ => none, lsnsPoll := none,
          openNetns := fun _ => .ok (), heartbeatReady := false }
        { exec_type := .runCommand, request_id := some 2, command_id := some 1,
          params := [], linux_ns_pid := some 1, batch_len := none }
        { batch_len := 1024 }).effects :=
  c5_netns_only_for_foreign_pid.1
    { agentId := 9, agentPid := 1, cmdPoll := fun _ => none, lsnsPoll := none,
      openNetns := fun _ => .ok (), heartbeatReady := false }
    { exec_type := .runCommand, request_id := some 2, command_id := some 1,
      params := [], linux_ns_pid := some 1, batch_len := none }
    { batch_len := 1024 }
    (Or.inr rfl) 7

theorem take_min_length_eq {α : Type} (l : List α) (n : Nat) :
    l.take (min l.length n) = l.take n := by
  rcases Nat.le_total l.length n with h | h
  · rw [min_eq_left h, List.take_length]
    exact (List.take_of_length_le h).symm
  · rw [min_eq_right h]

/-- C10: `max_param_nums` is 2 for this catalog; a `RunCommand` is handled
exactly as if it carried only its first `max_param_nums` parameters (so only
that prefix is validated and substituted); in particular a describe-pod
request whose third parameter is arbitrary — including invalid — is not
rejected by validation and registers the Kubernetes future built from the
first two parameters. -/
theorem c10_params_truncated_to_max :
    max_param_nums = 2 ∧
    (∀ (env : Env) (m : RemoteExecRequest) (s : RState),
      handle_run env m s
        = handle_run env { m with params := m.params.take max_param_nums } s) ∧
    (∀ (env : Env) (s : RState) (rid : Option Nat) (p3 : Parameter),
      handle_run env
        { exec_type := .runCommand, request_id := rid, command_id := some 4,
          params := [{ key := some "ns", value := some "prod" },
                     { key := some "pod", value := some "x" }, p3],
          linux_ns_pid := none, batch_len := none } s
        = ⟨none, { s with pending_command := some (rid, 4, .kube .describePod "prod" "x") },
            []⟩) := by
  refine ⟨rfl, ?_, ?_⟩
  · intro env m s
    have h1 : m.params.take (min m.params.length max_param_nums)
        = m.params.take max_param_nums := take_min_length_eq _ _
    have h2 : (m.params.take max_param_nums).take
          (min (m.params.take max_param_nums).length max_param_nums)
        = m.params.take max_param_nums := by
      rw [take_min_length_eq, List.take_take, min_self]
    unfold handle_run apply_batch_len nsfile_open
    dsimp only
    simp only [h1, h2]
  · intro env s rid p3
    rfl

/-- C4 counterexample: the namespace-listing failure path emits a response
that does carry an `errmsg` but carries NO `command_result` at all, while the
claim requires an (empty) `command_result` on every listed error path. -/
theorem c4_lsns_error_counterexample :
    (resolve_lsns 9 (some 5) (.error (.syscallFailed "boom"))).errmsg.isSome = true ∧
      (resolve_lsns 9 (some 5) (.error (.syscallFailed "boom"))).command_result
        = none := by
  exact ⟨rfl, rfl⟩

/-- C4 (amended): every per-request error path of the run-command pipeline —
missing `command_id`, unknown `command_id`, invalid parameters, namespace
file open failure, missing Kubernetes parameter, missing substitution
parameter, non-zero exit, exit without code, and spawn/Kubernetes I/O error —
completes the request with exactly one response carrying an `errmsg` and an
empty `command_result` whose errno is set exactly when known; the
namespace-listing failure path alone carries an `errmsg` and NO
`command_result`. -/
theorem c4_error_paths_amended :
    (∀ (aid : Nat) (rid : Option Nat) (k : Option Int) (msg : String),
      command_failed_helper aid rid k msg =
        { agent_id := some aid, request_id := rid, errmsg := some msg,
          command_result := some { errno := k } }) ∧
    (∀ (env : Env) (m : RemoteExecRequest) (s : RState),
      m.command_id = none →
      handle_run env m s = ⟨some (command_failed_helper env.agentId m.request_id none
        "command_id not specified"), apply_batch_len m s, []⟩) ∧
    (∀ (env : Env) (m : RemoteExecRequest) (s : RState) (cid : Nat),
      m.command_id = some cid → get_cmd cid = none →
      handle_run env m s = ⟨some (command_failed_helper env.agentId m.request_id none
        "command_id not specified or invalid in run command request"),
        apply_batch_len m s, []⟩) ∧
    (∀ (env : Env) (m : RemoteExecRequest) (s : RState) (cid : Nat) (cmd : Command)
        (msg : String),
      m.command_id = some cid → get_cmd cid = some cmd →
      Params.is_valid (m.params.take (min m.params.length max_param_nums)) = true →
      nsfile_open env m = .error msg →
      handle_run env m s = ⟨some (command_failed_helper env.agentId m.request_id none msg),
        apply_batch_len m s, []⟩) ∧
    (∀ (env : Env) (m : RemoteExecRequest) (s : RState) (cid : Nat) (cmd : Command)
        (k : KubeCmd) (e : RError) (nsf : Option Nat),
      m.command_id = some cid → get_cmd cid = some cmd →
      Params.is_valid (m.params.take (min m.params.length max_param_nums)) = true →
      nsfile_open env m = .ok nsf → cmd.cmdline ≠ "lsns" →
      cmd.command_type = .kubernetes k →
      kubectl_execute k (m.params.take (min m.params.length max_param_nums)) = .error e →
      handle_run env m s = ⟨some (command_failed_helper env.agentId m.request_id none
        e.message), apply_batch_len m s, []⟩) ∧
    (∀ (env : Env) (m : RemoteExecRequest) (s : RState) (cid : Nat) (cmd : Command)
        (arg : String) (nsf : Option Nat),
      m.command_id = some cid → get_cmd cid = some cmd →
      Params.is_valid (m.params.take (min m.params.length max_param_nums)) = true →
      nsfile_open env m = .ok nsf → cmd.cmdline ≠ "lsns" →
      cmd.command_type = .linux →
      build_args cmd.cmdline (m.params.take (min m.params.length max_param_nums))
        = .error arg →
      handle_run env m s = ⟨some (command_failed_helper env.agentId m.request_id none
        ("parameter " ++ arg ++ " not found in command '" ++ cmd.cmdline ++ "'")),
        apply_batch_len m s, []⟩) ∧
    (∀ (aid : Nat) (rid : Option Nat) (id : Nat) (o : SpawnOutput) (c : Int),
      o.success = false → o.code = some c →
      resolve_command aid rid id (.ok o) = .inl (command_failed_helper aid rid (some c)
        ("command '" ++ (get_cmdline id).getD "" ++ "' failed with " ++ toString c))) ∧
    (∀ (aid : Nat) (rid : Option Nat) (id : Nat) (o : SpawnOutput),
      o.success = false → o.code = none →
      resolve_command aid rid id (.ok o) = .inl (command_failed_helper aid rid none
        ("command '" ++ (get_cmdline id).getD ""
          ++ "' execute terminated without errno"))) ∧
    (∀ (aid : Nat) (rid : Option Nat) (id : Nat) (e : RError),
      resolve_command aid rid id (.error e) = .inl (command_failed_helper aid rid none
        ("command '" ++ (get_cmdline id).getD "" ++ "' execute failed: " ++ e.message))) ∧
    (∀ (aid : Nat) (rid : Option Nat) (e : RError),
      resolve_lsns aid rid (.error e)
        = { agent_id := some aid, request_id := rid, errmsg := some e.message } ∧
      (resolve_lsns aid rid (.error e)).command_result = none) := by
  refine ⟨fun aid rid k msg => rfl, ?_, ?_, ?_, ?_, ?_, ?_, ?_,
    fun aid rid id e => rfl, fun aid rid e => ⟨rfl, rfl⟩⟩
  · intro env m s hcid
    unfold handle_run
    rw [hcid]
  · intro env m s cid hcid hcmd
    unfold handle_run
    rw [hcid]
    simp only [hcmd]
  · intro env m s cid cmd msg hcid hcmd hval hns
    unfold handle_run
    rw [hcid]
    simp only [hcmd, hval, hns]
    rfl
  · intro env m s cid cmd k e nsf hcid hcmd hval hns hlsns hkt hke
    unfold handle_run
    rw [hcid]
    simp only [hcmd, hval, hns, hlsns, hkt, hke]
    rfl
  · intro env m s cid cmd arg nsf hcid hcmd hval hns hlsns hkt hba
    unfold handle_run
    rw [hcid]
    simp only [hcmd, hval, hns, hlsns, hkt, hba]
    rfl
  · intro aid rid id o c hsucc hcode
    simp [resolve_command, hsucc, hcode]
  · intro aid rid id o hsucc hcode
    simp [resolve_command, hsucc, hcode]

/-- Witness for C4 (amended): a `RunCommand` without a `command_id` yields the
single error response. -/
theorem c4_error_paths_amended_witness :
    handle_run
      { agentId := 9, agentPid := 1, cmdPoll := fun _ => none, lsnsPoll := none,
        openNetns := fun _ => .ok (), heartbeatReady := false }
      { exec_type := .runCommand, request_id := some 4, command_id := none,
        params := [], linux_ns_pid := none, batch_len := none }
      { batch_len := 1024 }
      = ⟨some (command_failed_helper 9 (some 4) none "command_id not specified"),
         apply_batch_len
           { exec_type := .runCommand, request_id := some 4, command_id := none,
             params := [], linux_ns_pid := none, batch_len := none }
           { batch_len := 1024 }, []⟩ :=
  c4_error_paths_amended.2.1
    { agentId := 9, agentPid := 1, cmdPoll := fun _ => none, lsnsPoll := none,
      openNetns := fun _ => .ok (), heartbeatReady := false }
    { exec_type := .runCommand, request_id := some 4, command_id := none,
      params := [], linux_ns_pid := none, batch_len := none }
    { batch_len := 1024 } rfl

theorem merge_fold_ascending :
    ∀ (rest : List Namespace) (e : Namespace),
      (∀ q ∈ rest, e.pid < q.pid) →
      ((rest.foldl Namespace.merge e).nprocs = e.nprocs + rest.length ∧
        (rest.foldl Namespace.merge e).pid = e.pid) := by
  intro rest
  induction rest with
  | nil =>
    intro e _
    exact ⟨rfl, rfl⟩
  | cons q t ih =>
    intro e hlt
    have hq : e.pid < q.pid := hlt q (List.mem_cons_self q t)
    have hmerge : Namespace.merge e q = { e with nprocs := e.nprocs + 1 } := by
      unfold Namespace.merge
      rw [if_pos hq]
    show ((t.foldl Namespace.merge (Namespace.merge e q)).nprocs
        = e.nprocs + (q :: t).length ∧ _)
    rw [hmerge]
    have ht : ∀ x ∈ t, (({ e with nprocs := e.nprocs + 1 } : Namespace)).pid < x.pid :=
      fun x hx => hlt x (List.mem_cons_of_mem q hx)
    obtain ⟨h1, h2⟩ := ih { e with nprocs := e.nprocs + 1 } ht
    constructor
    · rw [h1]
      show e.nprocs + 1 + t.length = e.nprocs + (q :: t).length
      simp [List.length_cons]
      omega
    · show (t.foldl Namespace.merge (Namespace.merge e q)).pid = e.pid
      rw [hmerge, h2]

/-- C3 counterexample: three processes sharing one namespace inode, arriving
with pids 3, 2, 1, leave the merged entry with `nprocs = 2` — not 3 as the
claim requires — because the merge overwrites the accumulated count with the
incoming entry's count plus one whenever a smaller pid arrives. -/
theorem c3_merge_counterexample :
    (([fresh_namespace_entry 77 .net 2 "u" "c",
       fresh_namespace_entry 77 .net 1 "u" "c"]).foldl Namespace.merge
      (fresh_namespace_entry 77 .net 3 "u" "c")).nprocs = 2 := by decide

/-- C3 (amended): each pairwise merge keeps the entry with the numerically
smaller pid and increments the KEPT entry's count by one (for a freshly built
incoming entry that count is 1, so the accumulated count is lost when the
incoming pid is smaller); consequently two processes sharing an inode always
yield `nprocs = 2` with the representative pid `min(pid1, pid2)`, and
`nprocs = n` holds for `n` processes only when arrivals carry increasing
pids. -/
theorem c3_merge_amended :
    (∀ a b : Namespace, a.pid ≠ b.pid →
      (Namespace.merge a b).pid = min a.pid b.pid ∧
      (Namespace.merge a b).nprocs
        = (if a.pid < b.pid then a.nprocs else b.nprocs) + 1) ∧
    (∀ (i : Nat) (ty : NsType) (p1 p2 : Nat) (u1 c1 u2 c2 : String), p1 ≠ p2 →
      (Namespace.merge (fresh_namespace_entry i ty p1 u1 c1)
        (fresh_namespace_entry i ty p2 u2 c2)).nprocs = 2 ∧
      (Namespace.merge (fresh_namespace_entry i ty p1 u1 c1)
        (fresh_namespace_entry i ty p2 u2 c2)).pid = min p1 p2) ∧
    (∀ (e : Namespace) (rest : List Namespace),
      e.nprocs = 1 → (∀ q ∈ rest, e.pid < q.pid) →
      (rest.foldl Namespace.merge e).nprocs = 1 + rest.length ∧
      (rest.foldl Namespace.merge e).pid = e.pid) := by
  have hpair : ∀ a b : Namespace, a.pid ≠ b.pid →
      (Namespace.merge a b).pid = min a.pid b.pid ∧
      (Namespace.merge a b).nprocs
        = (if a.pid < b.pid then a.nprocs else b.nprocs) + 1 := by
    intro a b hne
    unfold Namespace.merge
    by_cases h : a.pid < b.pid
    · rw [if_pos h]
      simp [min_eq_left (Nat.le_of_lt h), h]
    · rw [if_neg h]
      have hlt : b.pid < a.pid := Nat.lt_of_le_of_ne (Nat.le_of_not_lt h)
        (fun he => hne he.symm)
      simp [min_eq_right (Nat.le_of_lt hlt), h]
  refine ⟨hpair, ?_, ?_⟩
  · intro i ty p1 p2 u1 c1 u2 c2 hne
    have := hpair (fresh_namespace_entry i ty p1 u1 c1)
      (fresh_namespace_entry i ty p2 u2 c2) hne
    refine ⟨?_, this.1⟩
    rw [this.2]
    split <;> rfl
  · intro e rest he hlt
    obtain ⟨h1, h2⟩ := merge_fold_ascending rest e hlt
    rw [h1, he]
    exact ⟨Nat.add_comm 1 rest.length ▸ rfl, h2⟩

/-- Witness for C3 (amended): two fresh entries with pids 5 and 2 merge to a
single entry with `nprocs = 2` and representative pid 2. -/
theorem c3_merge_amended_witness :
    (Namespace.merge (fresh_namespace_entry 7 .net 5 "a" "x")
      (fresh_namespace_entry 7 .net 2 "b" "y")).nprocs = 2 ∧
    (Namespace.merge (fresh_namespace_entry 7 .net 5 "a" "x")
      (fresh_namespace_entry 7 .net 2 "b" "y")).pid = min 5 2 :=
  c3_merge_amended.2.1 7 .net 5 2 "a" "x" "b" "y" (by decide)

/-- C6: when the pod fetch fails but the events list succeeds, describe-pod
still succeeds, emitting the document with the `pod` field omitted and the
fetched events included; when both fail, the pod-fetch error (not the events
error) is returned. -/
theorem c6_describe_pod_partial_results :
    (∀ (P E : Type) (e : String) (evs : List E),
      describe_pod_combine (Except.error e : Except String P) (.ok evs)
        = .ok { pod := none, events := evs } ∧
      "pod" ∉ describe_pod_serialized_keys
        ({ pod := none, events := evs } : DescribePod P E) ∧
      (evs ≠ [] → "events" ∈ describe_pod_serialized_keys
        ({ pod := none, events := evs } : DescribePod P E))) ∧
    (∀ (P E : Type) (e e2 : String),
      describe_pod_combine (Except.error e : Except String P)
        (Except.error e2 : Except String (List E))
        = .error (.kubeError e)) := by
  constructor
  · intro P E e evs
    refine ⟨rfl, ?_, ?_⟩
    · simp only [describe_pod_serialized_keys]
      split <;> simp_all
    · intro hne
      simp [describe_pod_serialized_keys, hne]
  · intro P E e e2
    rfl

/-- Witness for C6: a failed pod fetch with one event still serializes the
`events` key. -/
theorem c6_describe_pod_partial_results_witness :
    "events" ∈ describe_pod_serialized_keys
      ({ pod := none, events := [0] } : DescribePod Nat Nat) :=
  (c6_describe_pod_partial_results.1 Nat Nat "err" [0]).2.2 (by decide)

theorem mem_le_max?_getD (l : List Nat) (x : Nat) (hx : x ∈ l) :
    x ≤ (l.max?).getD 0 := by
  cases hm : l.max? with
  | none =>
    rw [List.max?_eq_none_iff] at hm
    subst hm
    cases hx
  | some m =>
    have h := (List.max?_eq_some_iff (fun a => Nat.le_refl a)
      (fun a b => max_choice a b) (fun a b c => Nat.max_le)).mp hm
    simpa using h.2 x hx

theorem pad_left_length (w : Nat) (s : String) :
    (pad_left w s).length = max w s.length := by
  unfold pad_left
  rw [String.length_append]
  show (List.replicate (w - s.length) ' ').length + s.length = max w s.length
  rw [List.length_replicate]
  omega

theorem pad_right_length (w : Nat) (s : String) :
    (pad_right w s).length = max w s.length := by
  unfold pad_right
  rw [String.length_append]
  show s.length + (List.replicate (w - s.length) ' ').length = max w s.length
  rw [List.length_replicate]
  omega

/-- C9 counterexample: a namespace inode with 11 decimal digits overflows the
NS column's minimum width of 10, shifting every later column of its row, so
that row does not align with the header's column boundaries. -/
theorem c9_table_alignment_counterexample :
    row_column_offsets
        (table_name_width [{ id := 12345678901, ty := .net, nprocs := 1, pid := 1,
                             user := "root", command := "bash" }])
        { id := 12345678901, ty := .net, nprocs := 1, pid := 1,
          user := "root", command := "bash" }
      ≠ header_column_offsets
          (table_name_width [{ id := 12345678901, ty := .net, nprocs := 1, pid := 1,
                               user := "root", command := "bash" }]) := by
  decide

/-- C9 (amended): `write_namespace_table` renders the header row followed by
one row per entry in order, with columns NS, TYPE, NPROCS, PID, USER, COMMAND;
the USER column width is `max(len("USER"), longest user name)`; the numeric
widths 10/6/6/5 are minimums (padding never truncates), so all rows align on
every column boundary PROVIDED each rendered NS, TYPE, NPROCS and PID value
fits its minimum width — an over-wide value (e.g. an 11-digit inode) shifts
its row. -/
theorem c9_table_rendering_amended :
    (∀ table : List Namespace,
      table_name_width table
        = max (((table.map (fun n => n.user.length)).max?).getD 0) 4) ∧
    (∀ table : List Namespace,
      write_namespace_table table
        = namespace_table_header (table_name_width table) ++
            String.join (table.map (namespace_table_row (table_name_width table)))) ∧
    (∀ (w : Nat) (s : String), (pad_left w s).length = max w s.length) ∧
    (∀ (w : Nat) (s : String), (pad_right w s).length = max w s.length) ∧
    (∀ nw : Nat, (namespace_table_header nw).length = 31 + max nw 4 + 9) ∧
    (∀ table : List Namespace, ∀ ns ∈ table,
      (toString ns.id).length ≤ 10 → ns.ty.as_str.length ≤ 6 →
      (toString ns.nprocs).length ≤ 6 → (toString ns.pid).length ≤ 5 →
      row_column_offsets (table_name_width table) ns
        = header_column_offsets (table_name_width table)) := by
  refine ⟨fun table => rfl, fun table => rfl, pad_left_length, pad_right_length,
    ?_, ?_⟩
  · intro nw
    unfold namespace_table_header
    rw [String.length_append, String.length_append, pad_right_length]
    rfl
  · intro table ns hns h1 h2 h3 h4
    have huser : ns.user.length ≤ table_name_width table := by
      unfold table_name_width
      have hmem : ns.user.length ∈ table.map (fun n => n.user.length) :=
        List.mem_map_of_mem _ hns
      exact le_trans (mem_le_max?_getD _ _ hmem) (le_max_left _ _)
    have husr4 : 4 ≤ table_name_width table := le_max_right _ _
    unfold row_column_offsets header_column_offsets
    rw [max_eq_left h1, max_eq_left h2, max_eq_left h3, max_eq_left h4,
      max_eq_left huser, max_eq_left husr4]
    norm_num
    omega

/-- Witness for C9 (amended): a well-formed single-row table aligns with the
header. -/
theorem c9_table_rendering_amended_witness :
    row_column_offsets
        (table_name_width [{ id := 4026531993, ty := .net, nprocs := 3, pid := 17,
                             user := "root", command := "init" }])
        { id := 4026531993, ty := .net, nprocs := 3, pid := 17,
          user := "root", command := "init" }
      = header_column_offsets
          (table_name_width [{ id := 4026531993, ty := .net, nprocs := 3, pid := 17,
                               user := "root", command := "init" }]) :=
  c9_table_rendering_amended.2.2.2.2.2
    [{ id := 4026531993, ty := .net, nprocs := 3, pid := 17,
       user := "root", command := "init" }]
    { id := 4026531993, ty := .net, nprocs := 3, pid := 17,
      user := "root", command := "init" }
    (by decide) (by decide) (by decide) (by decide) (by decide)

/-- C2 counterexample: an entry with a present-but-empty key and value passes
`Params::is_valid`, while the claim requires the validator to return `true`
only for non-empty keys and values. -/
theorem c2_validator_counterexample :
    Params.is_valid [{ key := some "", value := some "" }] = true ∧
      spec_params_valid [{ key := some "", value := some "" }] = false := by
  exact ⟨by decide, by decide⟩

/-- C2 (amended): the validator returns `true` iff every entry has a PRESENT
(possibly empty) key, a PRESENT (possibly empty) value, and every byte of
every value lies in `[A-Za-z0-9_-]`; and whenever validation of the
(truncated) parameter list of a `RunCommand` with a known command id fails,
the whole request is rejected with a single error response, no future is
registered and no subprocess is spawned. -/
theorem c2_validator_amended :
    (∀ ps : List Parameter, Params.is_valid ps = true ↔
      ∀ p ∈ ps, p.key.isSome = true ∧
        ∃ v, p.value = some v ∧ ∀ c ∈ v.toList, param_char_ok c = true) ∧
    (∀ (env : Env) (m : RemoteExecRequest) (s : RState) (cid : Nat) (cmd : Command),
      m.command_id = some cid → get_cmd cid = some cmd →
      Params.is_valid (m.params.take (min m.params.length max_param_nums)) = false →
      handle_run env m s =
        ⟨some (command_failed_helper env.agentId m.request_id none
          ("rejected run command '" ++ cmd.cmdline ++ "' with invalid params: " ++
            params_debug (m.params.take (min m.params.length max_param_nums)))),
         apply_batch_len m s, []⟩) := by
  constructor
  · intro ps
    unfold Params.is_valid
    rw [List.all_eq_true]
    constructor
    · intro h p hp
      have hb := h p hp
      cases hv : p.value with
      | none =>
        rw [hv] at hb
        simp at hb
      | some v =>
        rw [hv] at hb
        simp [List.all_eq_true] at hb
        exact ⟨by simp [hb.1], v, rfl, hb.2⟩
    · intro h p hp
      obtain ⟨hk, v, hv, hall⟩ := h p hp
      rw [hv]
      simp [hk, List.all_eq_true]
      exact hall
  · intro env m s cid cmd hcid hcmd hv
    unfold handle_run
    rw [hcid]
    simp only [hcmd, hv]
    rfl

/-- Witness for C2 (amended): a well-formed parameter list is accepted. -/
theorem c2_validator_amended_witness :
    Params.is_valid [{ key := some "ns", value := some "kube-system" }] = true :=
  (c2_validator_amended.1 [{ key := some "ns", value := some "kube-system" }]).mpr
    (by decide)
example : split_whitespace "kubectl -n $ns describe pod $pod"
    = ["kubectl", "-n", "$ns", "describe", "pod", "$pod"] := by decide
example : Params.is_valid [{ key := some "ns", value := some "kube-system" }] = true := by
  decide
example : Params.is_valid [{ key := some "pod", value := some "my pod" }] = false := by
  decide
example : Params.is_valid [{ key := some "", value := some "" }] = true := by decide
